import Mathlib

/-
Verification of the npm-check-prepublish core (src/src/checker.ts and the
config loader) against its natural-language specification.

The embedding models the checker's pure logic directly from the source:
JavaScript strings become Lean `String`s (with `split` implemented
character-wise, matching `String.prototype.split` on a one-character
separator), JavaScript truthiness of optional string fields becomes a
non-emptiness test on an `Option String`, and each fallible external
operation (spawned command, filesystem call, dynamic import) becomes an
`Except String` outcome supplied by an environment record, so that every
control path of a stage (including its catch/finally structure) is an
explicit function of that environment.
-/

namespace NpmCheck

/-- JavaScript `String.prototype.split(sep)` for a one-character separator,
on the character list of the string: always returns a non-empty list of
groups, with empty groups for leading/trailing/adjacent separators. -/
def splitChar (sep : Char) : List Char → List (List Char)
  | [] => [[]]
  | c :: cs =>
    if c = sep then [] :: splitChar sep cs
    else (c :: (splitChar sep cs).headD []) :: (splitChar sep cs).tail

theorem splitChar_ne_nil (sep : Char) (l : List Char) : splitChar sep l ≠ [] := by
  cases l with
  | nil => simp [splitChar]
  | cons c cs =>
    simp only [splitChar]
    split <;> simp

/-- JavaScript `s.startsWith(p)` for string arguments. -/
def startsWithStr (s p : String) : Bool := p.data.isPrefixOf s.data

/-- JavaScript truthiness of an optional string manifest field: the field is
present and non-empty. -/
def truthyStr : Option String → Bool
  | none => false
  | some s => !s.data.isEmpty

/-- Node `path.join` restricted to plain relative segments (no normalization
is ever needed for the segments the checker joins). -/
def pathJoin (a b : String) : String := a ++ "/" ++ b

/-- The `bin` manifest field: either a single path or a name-to-path map
(`Object.entries` order is the insertion order of the JSON object). -/
inductive BinField
  | str : String → BinField
  | map : List (String × String) → BinField
deriving DecidableEq, Repr

/-- JavaScript truthiness of the `bin` field: absent and the empty string are
falsy; any object (even empty) is truthy. -/
def truthyBin : Option BinField → Bool
  | none => false
  | some (BinField.str s) => !s.data.isEmpty
  | some (BinField.map _) => true

/-- Parsed package.json manifest, with the fields the checker consumes.
`hasBuildScript` models the truthiness of `scripts?.build`. -/
structure PackageJson where
  name : String
  version : String
  mcpName : Option String := none
  main : Option String := none
  moduleField : Option String := none
  types : Option String := none
  bin : Option BinField := none
  hasBuildScript : Bool := false
deriving DecidableEq, Repr

/-- The detected package type (`PackageInfo.type`). -/
inductive PackageType
  | mcpServer
  | cli
  | module
deriving DecidableEq, Repr

/-- Derived package metadata returned in the verification result. -/
structure PackageInfo where
  type : PackageType
  name : String
  version : String
  serverName : Option String := none
  mcpName : Option String := none
  main : Option String := none
deriving DecidableEq, Repr

/-- `CheckPrepublish.getServerName`: from `mcpName`, the last `/`-separated
segment, falling back (JS `||`) to the whole value when that segment is
empty; otherwise derived from the package name by taking the segment after
the scope for `@scope/...` names. -/
def getServerName (pkg : PackageJson) : String :=
  if truthyStr pkg.mcpName then
    let m := (pkg.mcpName.getD "").data
    let last := (splitChar '/' m).getLastD []
    if last.isEmpty then String.mk m else String.mk last
  else
    if startsWithStr pkg.name "@" then
      let second := (splitChar '/' pkg.name.data).getD 1 []
      if second.isEmpty then pkg.name else String.mk second
    else pkg.name

/-- `CheckPrepublish.detectPackageType`: `mcpName` (truthy) gives
`mcp-server`, else a truthy `bin` gives `cli`, else `module`. -/
def detectPackageType (pkg : PackageJson) : PackageInfo :=
  if truthyStr pkg.mcpName then
    { type := PackageType.mcpServer, name := pkg.name, version := pkg.version,
      serverName := some (getServerName pkg), mcpName := pkg.mcpName, main := pkg.main }
  else if truthyBin pkg.bin then
    { type := PackageType.cli, name := pkg.name, version := pkg.version, main := pkg.main }
  else
    { type := PackageType.module, name := pkg.name, version := pkg.version, main := pkg.main }

/-- Caller configuration after the constructor applied its defaults
(`Required<VerifyConfig>`, minus the logger which carries no data). -/
structure VerifyConfig where
  packageDir : String := ""
  requiredFiles : List String := []
  testFile : String := ""
  skipBuild : Bool := false
  skipCheckRequiredFiles : Bool := false
  skipPackage : Bool := false
  skipCheckImport : Bool := false
  skipCheckBin : Bool := false
  skipCheckMcpServer : Bool := false
deriving DecidableEq, Repr

/-- `CheckPrepublish.getRequiredFiles`: seed with `package.json`, push
`main`, `module`, `types` when truthy, push the `bin` value(s), then the
caller-supplied extras. Written as the source's sequence of pushes. -/
def getRequiredFiles (pkg : PackageJson) (extras : List String) : List String :=
  let files : List String := ["package.json"]
  let files := if truthyStr pkg.main then files ++ [pkg.main.getD ""] else files
  let files := if truthyStr pkg.moduleField then files ++ [pkg.moduleField.getD ""] else files
  let files := if truthyStr pkg.types then files ++ [pkg.types.getD ""] else files
  let files := match pkg.bin with
    | none => files
    | some (BinField.str s) => if s.data.isEmpty then files else files ++ [s]
    | some (BinField.map m) => files ++ m.map Prod.snd
  files ++ extras

/-- `CheckPrepublish.getInstalledPackagePath`: scoped names are looked up
under `node_modules/<scope>/<bare>`, unscoped under `node_modules/<name>`. -/
def getInstalledPackagePath (packageName testDir : String) : String :=
  if startsWithStr packageName "@" then
    let parts := splitChar '/' packageName.data
    pathJoin (pathJoin (pathJoin testDir "node_modules") (String.mk (parts.getD 0 [])))
      (String.mk (parts.getD 1 []))
  else
    pathJoin (pathJoin testDir "node_modules") packageName

/-- The fixed list of path names that must not appear in the installed
package (`EXCLUDED_PATHS` in checker.ts). -/
def EXCLUDED_PATHS : List String := ["src", "test", ".env"]

/-- The excluded-content loop of Stage 3 (`verifyPackage`): returns the
message of the first thrown error, if any. `fsExists` models `existsSync`
relative to the workspace, `entries` models `readdirSync(packageDir)` in
directory order, `pdir` is the installed package root. As in the source,
the dot-name prefix scan over the directory listing only runs when the
`existsSync` gate on the exact excluded name passes. -/
def checkExcludedPaths (fsExists : String → Bool) (entries : List String) (pdir : String) : Option String :=
  EXCLUDED_PATHS.findSome? fun path =>
    if fsExists (pathJoin pdir path) then
      if startsWithStr path "." then
        (entries.find? (fun f => startsWithStr f path)).map
          (fun f => "File/directory should NOT be in package: " ++ f)
      else if fsExists (pathJoin pdir path) then
        some ("File/directory should NOT be in package: " ++ path)
      else none
    else none

/-- The `CheckPrepublish` instance state after construction: the defaulted
config, the parsed manifest, and the package info detected at construction. -/
structure Checker where
  config : VerifyConfig
  packageJson : PackageJson
  packageInfo : PackageInfo
deriving Repr

/-- The constructor: stores the config and manifest and runs type detection
once. -/
def mkChecker (config : VerifyConfig) (pkg : PackageJson) : Checker :=
  { config := config, packageJson := pkg, packageInfo := detectPackageType pkg }

/-- Observable outcome of one workspace-owning stage: the error accumulator
after the stage, the warning lines it logged, and whether removal of the
workspace directory and of the archive was attempted. -/
structure StageResult where
  errors : List String
  warnings : List String
  rmDirAttempted : Bool
  rmTarballAttempted : Bool
deriving DecidableEq, Repr

/-- Outcomes of the external operations Stage 3 (`verifyPackage`) performs:
`pack` yields the tarball filename, `mkdtemp` the workspace path;
`installedExists` and `entries` describe the installed copy; `rmDir` and
`rmTarball` are the outcomes of the two cleanup removals. -/
structure Stage3Env where
  pack : Except String String
  mkdtemp : Except String String
  npmInit : Except String Unit
  npmInstall : Except String Unit
  installedExists : String → Bool
  entries : List String
  rmDir : Except String Unit
  rmTarball : Except String Unit

/-- The `try` block of `verifyPackage`, step by step in source order.
Returns the values of the `testDir` and `tarballPath` variables at the time
the block exits (None when never assigned) and the thrown message, if any.
The installed-copy required-file loop throws at the first missing file;
the excluded-path loop throws at its first violation. -/
def stage3Try (c : Checker) (env : Stage3Env) : Option String × Option String × Option String :=
  match env.pack with
  | Except.error e => (none, none, some e)
  | Except.ok tarball =>
    let tarballPath := pathJoin c.config.packageDir tarball
    match env.mkdtemp with
    | Except.error e => (none, some tarballPath, some e)
    | Except.ok testDir =>
      match env.npmInit with
      | Except.error e => (some testDir, some tarballPath, some e)
      | Except.ok _ =>
        match env.npmInstall with
        | Except.error e => (some testDir, some tarballPath, some e)
        | Except.ok _ =>
          let pdir := getInstalledPackagePath c.packageJson.name testDir
          match (getRequiredFiles c.packageJson c.config.requiredFiles).find?
              (fun f => !env.installedExists (pathJoin pdir f)) with
          | some f => (some testDir, some tarballPath, some ("Missing file in installed package: " ++ f))
          | none =>
            match checkExcludedPaths env.installedExists env.entries pdir with
            | some m => (some testDir, some tarballPath, some m)
            | none => (some testDir, some tarballPath, none)

/-- The `finally` cleanup shared by `verifyPackage` and `verifyMcpServer`:
each created resource is removed independently; a removal failure becomes a
warning line and is swallowed. Returns the warning lines and which removals
were attempted. -/
def cleanupFinally (testDir tarballPath : Option String)
    (rmDir rmTarball : Except String Unit) : List String × Bool × Bool :=
  let dirPart : List String × Bool :=
    match testDir with
    | none => ([], false)
    | some _ =>
      match rmDir with
      | Except.ok _ => ([], true)
      | Except.error e => (["Warning: Failed to cleanup test directory: " ++ e], true)
  let tarPart : List String × Bool :=
    match tarballPath with
    | none => ([], false)
    | some _ =>
      match rmTarball with
      | Except.ok _ => ([], true)
      | Except.error e => (["Warning: Failed to cleanup tarball: " ++ e], true)
  (dirPart.1 ++ tarPart.1, dirPart.2, tarPart.2)

/-- Stage 3 (`verifyPackage`): skip, or run the try block, convert a thrown
message into one ErrorLog entry, then run the `finally` cleanup. -/
def verifyPackage (c : Checker) (env : Stage3Env) (errors : List String) : StageResult :=
  if c.config.skipPackage then
    { errors := errors, warnings := [], rmDirAttempted := false, rmTarballAttempted := false }
  else
    let t := stage3Try c env
    let errors := match t.2.2 with
      | some e => errors ++ ["Package verification failed: " ++ e]
      | none => errors
    let fin := cleanupFinally t.1 t.2.1 env.rmDir env.rmTarball
    { errors := errors, warnings := fin.1, rmDirAttempted := fin.2.1, rmTarballAttempted := fin.2.2 }

/-- Outcomes of the external operations of the Stage 4 module and cli
branches: `run` is the outcome of the runtime exercise itself (the
dynamic import of the installed entry point, or the resolution and `--version`
invocation of the installed executable). -/
structure Stage4Env where
  mkdtemp : Except String String
  pack : Except String String
  npmInit : Except String Unit
  npmInstall : Except String Unit
  run : Except String Unit
  rmDir : Except String Unit
  rmTarball : Except String Unit

/-- Stage 4, module branch (`verifyModuleImport`): the whole sequence,
including the two cleanup removals, lives inside one `try`; the `catch`
appends one import-failure entry. There is no `finally`, so the removals
run only when every prior step succeeded, and a removal failure itself is
caught and appended to the ErrorLog. -/
def verifyModuleImport (c : Checker) (env : Stage4Env) (errors : List String) : StageResult :=
  if c.config.skipCheckImport then
    { errors := errors, warnings := [], rmDirAttempted := false, rmTarballAttempted := false }
  else
    match env.mkdtemp with
    | Except.error e =>
      { errors := errors ++ ["Failed to import module: " ++ e], warnings := [],
        rmDirAttempted := false, rmTarballAttempted := false }
    | Except.ok _ =>
      match env.pack with
      | Except.error e =>
        { errors := errors ++ ["Failed to import module: " ++ e], warnings := [],
          rmDirAttempted := false, rmTarballAttempted := false }
      | Except.ok _ =>
        match env.npmInit with
        | Except.error e =>
          { errors := errors ++ ["Failed to import module: " ++ e], warnings := [],
            rmDirAttempted := false, rmTarballAttempted := false }
        | Except.ok _ =>
          match env.npmInstall with
          | Except.error e =>
            { errors := errors ++ ["Failed to import module: " ++ e], warnings := [],
              rmDirAttempted := false, rmTarballAttempted := false }
          | Except.ok _ =>
            match env.run with
            | Except.error e =>
              { errors := errors ++ ["Failed to import module: " ++ e], warnings := [],
                rmDirAttempted := false, rmTarballAttempted := false }
            | Except.ok _ =>
              match env.rmDir with
              | Except.error e =>
                { errors := errors ++ ["Failed to import module: " ++ e], warnings := [],
                  rmDirAttempted := true, rmTarballAttempted := false }
              | Except.ok _ =>
                match env.rmTarball with
                | Except.error e =>
                  { errors := errors ++ ["Failed to import module: " ++ e], warnings := [],
                    rmDirAttempted := true, rmTarballAttempted := true }
                | Except.ok _ =>
                  { errors := errors, warnings := [],
                    rmDirAttempted := true, rmTarballAttempted := true }

/-- Stage 4, cli branch (`verifyCliExecution`): identical control structure
to the module branch (cleanup inside the `try`), with its own skip flag and
error wording. -/
def verifyCliExecution (c : Checker) (env : Stage4Env) (errors : List String) : StageResult :=
  if c.config.skipCheckBin then
    { errors := errors, warnings := [], rmDirAttempted := false, rmTarballAttempted := false }
  else
    match env.mkdtemp with
    | Except.error e =>
      { errors := errors ++ ["CLI execution failed: " ++ e], warnings := [],
        rmDirAttempted := false, rmTarballAttempted := false }
    | Except.ok _ =>
      match env.pack with
      | Except.error e =>
        { errors := errors ++ ["CLI execution failed: " ++ e], warnings := [],
          rmDirAttempted := false, rmTarballAttempted := false }
      | Except.ok _ =>
        match env.npmInit with
        | Except.error e =>
          { errors := errors ++ ["CLI execution failed: " ++ e], warnings := [],
            rmDirAttempted := false, rmTarballAttempted := false }
        | Except.ok _ =>
          match env.npmInstall with
          | Except.error e =>
            { errors := errors ++ ["CLI execution failed: " ++ e], warnings := [],
              rmDirAttempted := false, rmTarballAttempted := false }
          | Except.ok _ =>
            match env.run with
            | Except.error e =>
              { errors := errors ++ ["CLI execution failed: " ++ e], warnings := [],
                rmDirAttempted := false, rmTarballAttempted := false }
            | Except.ok _ =>
              match env.rmDir with
              | Except.error e =>
                { errors := errors ++ ["CLI execution failed: " ++ e], warnings := [],
                  rmDirAttempted := true, rmTarballAttempted := false }
              | Except.ok _ =>
                match env.rmTarball with
                | Except.error e =>
                  { errors := errors ++ ["CLI execution failed: " ++ e], warnings := [],
                    rmDirAttempted := true, rmTarballAttempted := true }
                | Except.ok _ =>
                  { errors := errors, warnings := [],
                    rmDirAttempted := true, rmTarballAttempted := true }

/-- Outcomes of the external operations of the Stage 4 service branch
(`verifyMcpServer`): spawn of the server cluster, client connection, and the
optional custom-test import and run (`tests`, consulted only when a test
file is configured). -/
structure McpEnv where
  mkdtemp : Except String String
  pack : Except String String
  npmInit : Except String Unit
  npmInstall : Except String Unit
  spawn : Except String Unit
  connect : Except String Unit
  tests : Except String Unit
  rmDir : Except String Unit
  rmTarball : Except String Unit

/-- The `try` block of `verifyMcpServer`, step by step in source order
(workspace is created before the tarball here, the reverse of Stage 3).
Returns the `testDir` and `tarballPath` variables at exit and the thrown
message, if any. -/
def mcpTry (c : Checker) (env : McpEnv) : Option String × Option String × Option String :=
  match env.mkdtemp with
  | Except.error e => (none, none, some e)
  | Except.ok testDir =>
    match env.pack with
    | Except.error e => (some testDir, none, some e)
    | Except.ok tarball =>
      let tarballPath := pathJoin c.config.packageDir tarball
      match env.npmInit with
      | Except.error e => (some testDir, some tarballPath, some e)
      | Except.ok _ =>
        match env.npmInstall with
        | Except.error e => (some testDir, some tarballPath, some e)
        | Except.ok _ =>
          match env.spawn with
          | Except.error e => (some testDir, some tarballPath, some e)
          | Except.ok _ =>
            match env.connect with
            | Except.error e => (some testDir, some tarballPath, some e)
            | Except.ok _ =>
              if c.config.testFile.data.isEmpty then (some testDir, some tarballPath, none)
              else
                match env.tests with
                | Except.error e => (some testDir, some tarballPath, some e)
                | Except.ok _ => (some testDir, some tarballPath, none)

/-- Stage 4, service branch (`verifyMcpServer`): skip, or run the try
block, convert a thrown message into one ErrorLog entry, then run the
`finally` cleanup (client close and cluster shutdown swallow their own
failures and touch neither errors nor warnings; the two removals behave as
in Stage 3). -/
def verifyMcpServer (c : Checker) (env : McpEnv) (errors : List String) : StageResult :=
  if c.config.skipCheckMcpServer then
    { errors := errors, warnings := [], rmDirAttempted := false, rmTarballAttempted := false }
  else
    let t := mcpTry c env
    let errors := match t.2.2 with
      | some e => errors ++ ["MCP server verification failed: " ++ e]
      | none => errors
    let fin := cleanupFinally t.1 t.2.1 env.rmDir env.rmTarball
    { errors := errors, warnings := fin.1, rmDirAttempted := fin.2.1, rmTarballAttempted := fin.2.2 }

/-- Stage 1 (`verifyBuild`): no-op when skipped or when no build script is
declared; a build failure appends one entry. -/
def verifyBuild (c : Checker) (buildResult : Except String Unit) (errors : List String) : List String :=
  if c.config.skipBuild then errors
  else if !c.packageJson.hasBuildScript then errors
  else
    match buildResult with
    | Except.ok _ => errors
    | Except.error e => errors ++ ["Build failed: " ++ e]

/-- Stage 2 (`verifyRequiredFiles`): no-op when skipped; otherwise walk the
resolved required files in order, appending one entry per missing file,
never short-circuiting. -/
def verifyRequiredFiles (c : Checker) (fsExists : String → Bool) (errors : List String) : List String :=
  if c.config.skipCheckRequiredFiles then errors
  else
    (getRequiredFiles c.packageJson c.config.requiredFiles).foldl
      (fun errs file =>
        if fsExists (pathJoin c.config.packageDir file) then errs
        else errs ++ ["Missing required file: " ++ file])
      errors

/-- Outcomes of all external operations one `check()` call can perform. -/
structure CheckEnv where
  build : Except String Unit
  fsExists : String → Bool
  s3 : Stage3Env
  s4 : Stage4Env
  mcp : McpEnv

/-- Stage 4 (`verifyRuntime`): dispatch on the detected package type. -/
def verifyRuntime (c : Checker) (env : CheckEnv) (errors : List String) : StageResult :=
  match c.packageInfo.type with
  | PackageType.module => verifyModuleImport c env.s4 errors
  | PackageType.cli => verifyCliExecution c env.s4 errors
  | PackageType.mcpServer => verifyMcpServer c env.mcp errors

/-- The value returned by `check()`. -/
structure VerificationResult where
  success : Bool
  errors : List String
  packageInfo : PackageInfo
deriving DecidableEq, Repr

/-- `CheckPrepublish.check`: the error accumulator is reset to empty at the
start (so the `prevErrors` the instance held is discarded), the four stages
run in order threading the accumulator, and the result reports
`success = (errors.length == 0)` together with the accumulated errors and
the package info computed at construction. -/
def check (c : Checker) (prevErrors : List String) (env : CheckEnv) : VerificationResult :=
  let _ := prevErrors
  let errors : List String := []
  let errors := verifyBuild c env.build errors
  let errors := verifyRequiredFiles c env.fsExists errors
  let errors := (verifyPackage c env.s3 errors).errors
  let errors := (verifyRuntime c env errors).errors
  { success := errors.length == 0, errors := errors, packageInfo := c.packageInfo }

/-- Options an on-disk config file may carry (`FileConfig` in the config
loader): every field optional. -/
structure FileConfig where
  requiredFiles : Option (List String) := none
  skipBuild : Option Bool := none
  skipCheckRequiredFiles : Option Bool := none
  skipPackage : Option Bool := none
  skipCheckImport : Option Bool := none
  skipCheckBin : Option Bool := none
deriving DecidableEq, Repr

/-- Explicit (CLI/construction) options as a partial config
(`Partial<VerifyConfig>`, minus the logger which carries no data). -/
structure CliConfig where
  packageDir : Option String := none
  requiredFiles : Option (List String) := none
  skipBuild : Option Bool := none
  skipCheckRequiredFiles : Option Bool := none
  skipPackage : Option Bool := none
  skipCheckImport : Option Bool := none
  skipCheckBin : Option Bool := none
deriving DecidableEq, Repr

/-- JavaScript nullish coalescing `a ?? b` on optional values. -/
def jsNullish (a b : Option α) : Option α :=
  match a with
  | some x => some x
  | none => b

/-- `mergeConfig` from the config loader: explicit flags win via `??`, the
`requiredFiles` arrays are concatenated with the file entries first. -/
def mergeConfig (fileConfig : FileConfig) (cliConfig : CliConfig) : CliConfig :=
  { packageDir := cliConfig.packageDir,
    skipBuild := jsNullish cliConfig.skipBuild fileConfig.skipBuild,
    skipCheckRequiredFiles := jsNullish cliConfig.skipCheckRequiredFiles fileConfig.skipCheckRequiredFiles,
    skipPackage := jsNullish cliConfig.skipPackage fileConfig.skipPackage,
    skipCheckImport := jsNullish cliConfig.skipCheckImport fileConfig.skipCheckImport,
    skipCheckBin := jsNullish cliConfig.skipCheckBin fileConfig.skipCheckBin,
    requiredFiles := some (fileConfig.requiredFiles.getD [] ++ cliConfig.requiredFiles.getD []) }

/-- Whether the outcome of an external operation is a success. -/
def exOk : Except String α → Bool
  | Except.ok _ => true
  | Except.error _ => false

/-! Theorems. -/

/-- C1: the type detector is a total, deterministic function of the
descriptor, applying the precedence service-identity over executable entry:
a declared (truthy) `mcpName` yields kind `mcp-server` even when `bin` is
also declared; otherwise a declared `bin` yields `cli`; otherwise `module`.
Exactly one kind is produced for every descriptor. -/
theorem C1_detect_total_precedence (pkg : PackageJson) :
    (truthyStr pkg.mcpName = true → (detectPackageType pkg).type = PackageType.mcpServer)
    ∧ (truthyStr pkg.mcpName = false → truthyBin pkg.bin = true →
        (detectPackageType pkg).type = PackageType.cli)
    ∧ (truthyStr pkg.mcpName = false → truthyBin pkg.bin = false →
        (detectPackageType pkg).type = PackageType.module)
    ∧ ((detectPackageType pkg).type = PackageType.mcpServer
        ∨ (detectPackageType pkg).type = PackageType.cli
        ∨ (detectPackageType pkg).type = PackageType.module) := by
  unfold detectPackageType
  cases h : truthyStr pkg.mcpName <;> cases hb : truthyBin pkg.bin <;> simp [h, hb]

/-- Descriptor declaring both a service-identity field and an executable
entry. -/
def pkgBothFields : PackageJson :=
  { name := "p", version := "1.0.0", mcpName := some "x/y",
    bin := some (BinField.str "bin/cli.js") }

/-- C1 witness: with both `mcpName` and `bin` declared, detection yields
`mcp-server`. -/
theorem C1_witness : (detectPackageType pkgBothFields).type = PackageType.mcpServer :=
  (C1_detect_total_precedence pkgBothFields).1 (by decide)

/-- C10: the detected PackageInfo carries a serverName exactly when its
kind is `mcp-server`; for `cli` and `module` it is absent. -/
theorem C10_serverName_iff_service (pkg : PackageJson) :
    (detectPackageType pkg).serverName.isSome = true ↔
      (detectPackageType pkg).type = PackageType.mcpServer := by
  unfold detectPackageType
  cases h : truthyStr pkg.mcpName <;> cases hb : truthyBin pkg.bin <;> simp [h, hb]

/-- C2 (evaluation of the code at the failing input): an installed copy
whose top-level listing contains `.env.local` but no entry named exactly
`.env` is not flagged, because the dot-name prefix scan only runs when the
exact excluded name exists; with `.env` itself present the scan does flag,
and `myenvfile` is never flagged. -/
theorem C2_excluded_gate_eval :
    checkExcludedPaths (fun p => ["d/package.json", "d/.env.local"].contains p)
        ["package.json", ".env.local"] "d" = none
    ∧ checkExcludedPaths (fun p => ["d/package.json", "d/.env", "d/.env.local"].contains p)
        ["package.json", ".env", ".env.local"] "d"
        = some "File/directory should NOT be in package: .env"
    ∧ checkExcludedPaths (fun p => ["d/myenvfile"].contains p) ["myenvfile"] "d" = none := by
  refine ⟨?_, ?_, ?_⟩ <;> rfl

/-- C5: the required-file resolver is deterministic, order-preserving and
non-deduplicating: the output is the manifest path first (always), then the
primary entry point, alternate module entry point and type-declaration path
when declared, then the executable value(s), then the caller extras
verbatim (duplicates kept, no normalization). -/
theorem C5_resolver (pkg : PackageJson) (extras : List String) :
    getRequiredFiles pkg extras =
      ["package.json"]
        ++ (if truthyStr pkg.main then [pkg.main.getD ""] else [])
        ++ (if truthyStr pkg.moduleField then [pkg.moduleField.getD ""] else [])
        ++ (if truthyStr pkg.types then [pkg.types.getD ""] else [])
        ++ (match pkg.bin with
            | none => []
            | some (BinField.str s) => if s.data.isEmpty then [] else [s]
            | some (BinField.map m) => m.map Prod.snd)
        ++ extras
    ∧ (getRequiredFiles pkg extras).head? = some "package.json" := by
  have h : getRequiredFiles pkg extras =
      ["package.json"]
        ++ (if truthyStr pkg.main then [pkg.main.getD ""] else [])
        ++ (if truthyStr pkg.moduleField then [pkg.moduleField.getD ""] else [])
        ++ (if truthyStr pkg.types then [pkg.types.getD ""] else [])
        ++ (match pkg.bin with
            | none => []
            | some (BinField.str s) => if s.data.isEmpty then [] else [s]
            | some (BinField.map m) => m.map Prod.snd)
        ++ extras := by
    unfold getRequiredFiles
    cases hb : pkg.bin with
    | none => split_ifs <;> simp
    | some b =>
      cases b with
      | str s => split_ifs <;> by_cases hs : s.data = [] <;> simp [hs]
      | map m => split_ifs <;> simp
  exact ⟨h, by rw [h]; rfl⟩

/-- C9: merging a file config with the explicit config gives the explicit
value precedence for every scalar skip flag — the file value is consulted
only when the explicit value is unset — while `requiredFiles` is
concatenated, file entries first. -/
theorem C9_merge_precedence (f : FileConfig) (c : CliConfig) :
    ((∀ b, c.skipBuild = some b → (mergeConfig f c).skipBuild = some b)
      ∧ (c.skipBuild = none → (mergeConfig f c).skipBuild = f.skipBuild))
    ∧ ((∀ b, c.skipCheckRequiredFiles = some b →
          (mergeConfig f c).skipCheckRequiredFiles = some b)
      ∧ (c.skipCheckRequiredFiles = none →
          (mergeConfig f c).skipCheckRequiredFiles = f.skipCheckRequiredFiles))
    ∧ ((∀ b, c.skipPackage = some b → (mergeConfig f c).skipPackage = some b)
      ∧ (c.skipPackage = none → (mergeConfig f c).skipPackage = f.skipPackage))
    ∧ ((∀ b, c.skipCheckImport = some b → (mergeConfig f c).skipCheckImport = some b)
      ∧ (c.skipCheckImport = none → (mergeConfig f c).skipCheckImport = f.skipCheckImport))
    ∧ ((∀ b, c.skipCheckBin = some b → (mergeConfig f c).skipCheckBin = some b)
      ∧ (c.skipCheckBin = none → (mergeConfig f c).skipCheckBin = f.skipCheckBin))
    ∧ (mergeConfig f c).requiredFiles =
        some (f.requiredFiles.getD [] ++ c.requiredFiles.getD []) := by
  refine ⟨⟨?_, ?_⟩, ⟨?_, ?_⟩, ⟨?_, ?_⟩, ⟨?_, ?_⟩, ⟨?_, ?_⟩, rfl⟩ <;>
    first
      | (intro b hb; simp [mergeConfig, jsNullish, hb])
      | (intro hb; simp [mergeConfig, jsNullish, hb])

/-- A file config setting every flag and some extra files. -/
def fileCfgAll : FileConfig :=
  { requiredFiles := some ["from-file.js"], skipBuild := some true,
    skipCheckRequiredFiles := some true, skipPackage := some true,
    skipCheckImport := some true, skipCheckBin := some true }

/-- An explicit config that overrides only `skipBuild` and adds one file. -/
def cliCfgPart : CliConfig :=
  { requiredFiles := some ["from-cli.js"], skipBuild := some false }

/-- C9 witness: the explicit `skipBuild := false` wins over the file's
`true`, the unset `skipPackage` falls back to the file value, and the
required files concatenate file-first. -/
theorem C9_witness :
    (mergeConfig fileCfgAll cliCfgPart).skipBuild = some false
    ∧ (mergeConfig fileCfgAll cliCfgPart).skipPackage = some true
    ∧ (mergeConfig fileCfgAll cliCfgPart).requiredFiles =
        some ["from-file.js", "from-cli.js"] :=
  ⟨((C9_merge_precedence fileCfgAll cliCfgPart).1).1 false rfl,
   ((C9_merge_precedence fileCfgAll cliCfgPart).2.2.1).2 rfl,
   by
    rw [(C9_merge_precedence fileCfgAll cliCfgPart).2.2.2.2.2]
    rfl⟩

/-- The Stage 2 loop accumulates exactly one message per missing file, in
order, regardless of earlier failures. -/
theorem foldl_missing_append (fsExists : String → Bool) (dir : String) (l errors : List String) :
    l.foldl (fun errs file =>
        if fsExists (pathJoin dir file) then errs
        else errs ++ ["Missing required file: " ++ file]) errors
      = errors ++ l.filterMap (fun file =>
          if fsExists (pathJoin dir file) then none
          else some ("Missing required file: " ++ file)) := by
  induction l generalizing errors with
  | nil => simp
  | cons x xs ih =>
    by_cases h : fsExists (pathJoin dir x) = true
    · simp [h, ih]
    · simp only [Bool.not_eq_true] at h
      simp [h, ih]

/-- C3: Stage 2 is exhaustive — when not skipped, the ErrorLog afterwards
is the previous log followed by one distinct missing-file entry for every
resolved required file that does not exist under the artifact root, in
resolution order; files after an earlier failure are still checked. -/
theorem C3_static_check_exhaustive (c : Checker) (fsExists : String → Bool)
    (errors : List String) (h : c.config.skipCheckRequiredFiles = false) :
    verifyRequiredFiles c fsExists errors =
      errors ++ (getRequiredFiles c.packageJson c.config.requiredFiles).filterMap
        (fun file =>
          if fsExists (pathJoin c.config.packageDir file) then none
          else some ("Missing required file: " ++ file)) := by
  unfold verifyRequiredFiles
  rw [h]
  simp only [Bool.false_eq_true, if_false]
  exact foldl_missing_append _ _ _ _

/-- A manifest whose config demands two extra files. -/
def cfgTwoExtras : VerifyConfig :=
  { packageDir := "proj", requiredFiles := ["dist/a.js", "dist/b.js"] }

/-- A minimal module manifest. -/
def pkgPlainModule : PackageJson := { name := "t", version := "1.0.0" }

/-- C3 witness: with both extra required files missing, the run reports
both missing-file entries, not just the first. -/
theorem C3_witness :
    verifyRequiredFiles (mkChecker cfgTwoExtras pkgPlainModule)
        (fun p => p == "proj/package.json") [] =
      ["Missing required file: dist/a.js", "Missing required file: dist/b.js"] := by
  rw [C3_static_check_exhaustive (mkChecker cfgTwoExtras pkgPlainModule)
    (fun p => p == "proj/package.json") [] rfl]
  rfl

/-- A split of a separator-free list is the single group holding the whole
list. -/
theorem splitChar_of_not_mem (sep : Char) (l : List Char) (h : sep ∉ l) :
    splitChar sep l = [l] := by
  induction l with
  | nil => rfl
  | cons x xs ih =>
    have hx : ¬ x = sep := by rintro rfl; exact h (List.mem_cons_self _ _)
    have hxs : sep ∉ xs := fun hm => h (List.mem_cons_of_mem _ hm)
    simp [splitChar, hx, ih hxs]

/-- Splitting at the first separator occurrence peels off the leading
group. -/
theorem splitChar_append_cons (sep : Char) (l1 l2 : List Char) (h : sep ∉ l1) :
    splitChar sep (l1 ++ sep :: l2) = l1 :: splitChar sep l2 := by
  induction l1 with
  | nil => simp [splitChar]
  | cons x xs ih =>
    have hx : ¬ x = sep := by rintro rfl; exact h (List.mem_cons_self _ _)
    have hxs : sep ∉ xs := fun hm => h (List.mem_cons_of_mem _ hm)
    simp [splitChar, hx, ih hxs]

theorem getLast?_cons_of_ne_nil (a : α) (l : List α) (h : l ≠ []) :
    (a :: l).getLast? = l.getLast? := by
  cases l with
  | nil => exact absurd rfl h
  | cons b t => rfl

/-- When the separator occurs, the split has at least two groups. -/
theorem splitChar_mem_struct (sep : Char) (l : List Char) (h : sep ∈ l) :
    ∃ g gs, splitChar sep l = g :: gs ∧ gs ≠ [] := by
  induction l with
  | nil => cases h
  | cons x xs ih =>
    by_cases hx : x = sep
    · subst hx
      refine ⟨[], splitChar x xs, ?_, splitChar_ne_nil x xs⟩
      simp [splitChar]
    · have hxs : sep ∈ xs := by
        rcases List.mem_cons.mp h with h1 | h1
        · exact absurd h1.symm hx
        · exact h1
      obtain ⟨g, gs, hgl, hgs⟩ := ih hxs
      refine ⟨x :: g, gs, ?_, hgs⟩
      simp [splitChar, hx, hgl]

theorem takeWhile_append_of_ex_false (p : α → Bool) (X Y : List α)
    (h : ∃ x ∈ X, p x = false) :
    (X ++ Y).takeWhile p = X.takeWhile p := by
  induction X with
  | nil => obtain ⟨x, hx, _⟩ := h; cases hx
  | cons a as ih =>
    by_cases ha : p a
    · have h2 : ∃ x ∈ as, p x = false := by
        obtain ⟨x, hx, hpx⟩ := h
        rcases List.mem_cons.mp hx with rfl | hmem
        · rw [ha] at hpx; cases hpx
        · exact ⟨x, hmem, hpx⟩
      simp [List.takeWhile_cons, ha, ih h2]
    · simp only [Bool.not_eq_true] at ha
      simp [List.takeWhile_cons, ha]

theorem takeWhile_append_singleton_false (p : α → Bool) (a : α) (ha : p a = false)
    (X : List α) : (X ++ [a]).takeWhile p = X.takeWhile p := by
  induction X with
  | nil => simp [List.takeWhile_cons, ha]
  | cons x xs ih =>
    by_cases hx : p x
    · simp [List.takeWhile_cons, hx, ih]
    · simp only [Bool.not_eq_true] at hx
      simp [List.takeWhile_cons, hx]

theorem takeWhile_append_of_all_true (p : α → Bool) (X Y : List α)
    (h : ∀ x ∈ X, p x = true) :
    (X ++ Y).takeWhile p = X ++ Y.takeWhile p := by
  induction X with
  | nil => simp
  | cons a as ih =>
    have ha : p a = true := h a (List.mem_cons_self _ _)
    have has : ∀ x ∈ as, p x = true := fun x hx => h x (List.mem_cons_of_mem _ hx)
    simp [List.takeWhile_cons, ha, ih has]

/-- The last group of a split is the suffix after the last separator
occurrence (the whole list when the separator never occurs). -/
theorem getLast?_splitChar (sep : Char) (l : List Char) :
    (splitChar sep l).getLast? =
      some ((l.reverse.takeWhile (fun x => x != sep)).reverse) := by
  induction l with
  | nil => simp [splitChar]
  | cons c cs ih =>
    by_cases hc : c = sep
    · subst hc
      have hS := splitChar_ne_nil c cs
      rw [show splitChar c (c :: cs) = [] :: splitChar c cs by simp [splitChar]]
      rw [getLast?_cons_of_ne_nil _ _ hS, ih]
      have hrw : ((cs.reverse ++ [c]).takeWhile (fun x => x != c))
          = cs.reverse.takeWhile (fun x => x != c) :=
        takeWhile_append_singleton_false _ c (by simp) _
      simp [hrw]
    · by_cases hmem : sep ∈ cs
      · obtain ⟨g, gs, hgl, hgs⟩ := splitChar_mem_struct sep cs hmem
        rw [show splitChar sep (c :: cs) = (c :: g) :: gs by simp [splitChar, hc, hgl]]
        rw [getLast?_cons_of_ne_nil _ _ hgs]
        rw [hgl] at ih
        rw [getLast?_cons_of_ne_nil _ _ hgs] at ih
        rw [ih]
        have hrw : ((cs.reverse ++ [c]).takeWhile (fun x => x != sep))
            = cs.reverse.takeWhile (fun x => x != sep) :=
          takeWhile_append_of_ex_false _ _ _ ⟨sep, by simp [hmem], by simp⟩
        simp [hrw]
      · rw [show splitChar sep (c :: cs) = [c :: cs] by
          simp [splitChar, hc, splitChar_of_not_mem sep cs hmem]]
        have hall : ∀ x ∈ cs.reverse, (fun x => x != sep) x = true := by
          intro x hx
          simp only [bne_iff_ne, ne_eq, decide_eq_true_eq]
          rintro rfl
          exact hmem (List.mem_reverse.mp hx)
        have hrw : ((cs.reverse ++ [c]).takeWhile (fun x => x != sep))
            = cs.reverse ++ [c] := by
          rw [takeWhile_append_of_all_true _ _ _ hall]
          simp [List.takeWhile_cons, hc]
        simp [hrw]

/-- Modelled from the claim's words: the substring of `s` after the last
`/` (the characters taken from the end of `s` up to the last slash); for a
value containing no `/`, the whole value. -/
def stringAfterLastSlash (s : String) : String :=
  String.mk ((s.data.reverse.takeWhile (fun x => x != '/')).reverse)

/-- A string built from a character list is empty exactly when the list
is. -/
theorem stringMk_eq_empty_iff (l : List Char) : String.mk l = "" ↔ l = [] := by
  constructor
  · intro h
    exact congrArg String.data h
  · rintro rfl
    rfl

/-- C6 counterexample: for service-identity value `"a/"` (which contains a
`/`), the substring after the last `/` is empty, but the code derives
`"a/"`: the JS `||` fallback fires on the empty last segment, so the
claim's unconditional after-last-slash rule fails. -/
theorem C6_counterexample :
    getServerName { name := "p", version := "1.0.0", mcpName := some "a/" } = "a/"
    ∧ stringAfterLastSlash "a/" = "" := by
  constructor <;> rfl

/-- C6 amended: for every descriptor with a non-empty service-identity
value, the derived service name is the substring after the last `/` of the
value, except that when that substring is empty the full value is used
unchanged; in particular a value with no `/` maps to itself, and `"X/Y"`
maps to `"Y"`. -/
theorem C6_server_name_amended (pkg : PackageJson) (s : String)
    (h : pkg.mcpName = some s) (hs : s.data ≠ []) :
    getServerName pkg =
      if stringAfterLastSlash s = "" then s else stringAfterLastSlash s := by
  unfold getServerName
  have ht : truthyStr pkg.mcpName = true := by
    rw [h]
    simp [truthyStr, hs]
  rw [ht]
  simp only [if_true, h, Option.getD_some]
  have hlast : (splitChar '/' s.data).getLastD []
      = (s.data.reverse.takeWhile (fun x => x != '/')).reverse := by
    rw [List.getLastD_eq_getLast?, getLast?_splitChar]
    rfl
  rw [hlast]
  by_cases hR : (s.data.reverse.takeWhile (fun x => x != '/')).reverse = []
  · rw [hR]
    have : stringAfterLastSlash s = "" := by
      unfold stringAfterLastSlash
      rw [hR]
    simp [this]
  · have h1 : ((s.data.reverse.takeWhile (fun x => x != '/')).reverse).isEmpty = false := by
      simpa [List.isEmpty_iff] using hR
    have h2 : ¬ String.mk ((s.data.reverse.takeWhile (fun x => x != '/')).reverse) = "" := by
      rw [stringMk_eq_empty_iff]
      exact hR
    rw [h1]
    unfold stringAfterLastSlash
    simp only [if_neg h2]
    simp

/-- C6 witness: the amended rule at the claim's own examples, `"x/y"`
yielding `"y"` and slash-free `"y"` yielding `"y"`. -/
theorem C6_witness :
    (getServerName { name := "p", version := "1.0.0", mcpName := some "x/y" } =
      if stringAfterLastSlash "x/y" = "" then "x/y" else stringAfterLastSlash "x/y")
    ∧ (getServerName { name := "q", version := "1.0.0", mcpName := some "y" } =
      if stringAfterLastSlash "y" = "" then "y" else stringAfterLastSlash "y") :=
  ⟨C6_server_name_amended _ "x/y" rfl (by decide),
   C6_server_name_amended _ "y" rfl (by decide)⟩

/-- C8: the installed-copy lookup path. A scoped name `@scope/bare` (with
slash-free scope and bare parts) resolves to
`<workspace>/node_modules/@scope/bare`; an unscoped name (not starting with
`@`) resolves to `<workspace>/node_modules/<name>`. -/
theorem C8_installed_path (testDir scope bare : String)
    (h1 : ('/' : Char) ∉ scope.data) (h2 : ('/' : Char) ∉ bare.data) :
    (getInstalledPackagePath ("@" ++ scope ++ "/" ++ bare) testDir =
      pathJoin (pathJoin (pathJoin testDir "node_modules") ("@" ++ scope)) bare)
    ∧ ∀ n : String, startsWithStr n "@" = false →
        getInstalledPackagePath n testDir = pathJoin (pathJoin testDir "node_modules") n := by
  constructor
  · unfold getInstalledPackagePath
    have hdata : ("@" ++ scope ++ "/" ++ bare).data
        = ('@' :: scope.data) ++ '/' :: bare.data := by
      simp [String.data_append]
    have hsw : startsWithStr ("@" ++ scope ++ "/" ++ bare) "@" = true := by
      unfold startsWithStr
      rw [hdata]
      simp [List.isPrefixOf]
    rw [hsw]
    have hsc : ('/' : Char) ∉ '@' :: scope.data := by
      intro hm
      rcases List.mem_cons.mp hm with h | h
      · cases h
      · exact h1 h
    have hsplit : splitChar '/' (("@" ++ scope ++ "/" ++ bare).data)
        = ('@' :: scope.data) :: [bare.data] := by
      rw [hdata, splitChar_append_cons '/' _ _ hsc, splitChar_of_not_mem '/' _ h2]
    simp only [if_true, hsplit]
    have hmkScope : String.mk ('@' :: scope.data) = "@" ++ scope := by
      have : ("@" ++ scope).data = '@' :: scope.data := by simp [String.data_append]
      rw [← this]
    have hmkBare : String.mk bare.data = bare := rfl
    simp [hmkScope, hmkBare]
  · intro n hn
    unfold getInstalledPackagePath
    rw [hn]
    simp

/-- C8 witness: the scoped and unscoped forms at concrete names. -/
theorem C8_witness :
    (getInstalledPackagePath ("@" ++ "myscope" ++ "/" ++ "mypkg") "ws" =
      pathJoin (pathJoin (pathJoin "ws" "node_modules") ("@" ++ "myscope")) "mypkg")
    ∧ getInstalledPackagePath "plain" "ws" = pathJoin (pathJoin "ws" "node_modules") "plain" :=
  ⟨(C8_installed_path "ws" "myscope" "mypkg" (by decide) (by decide)).1,
   (C8_installed_path "ws" "myscope" "mypkg" (by decide) (by decide)).2 "plain" (by decide)⟩

theorem exOk_eq_true_iff (e : Except String α) : exOk e = true ↔ ∃ x, e = Except.ok x := by
  cases e <;> simp [exOk]

/-- The finally-style cleanup attempts the workspace removal exactly when
the workspace variable was assigned. -/
theorem cleanupFinally_dir (td tp : Option String) (r1 r2 : Except String Unit) :
    (cleanupFinally td tp r1 r2).2.1 = td.isSome := by
  unfold cleanupFinally
  cases td <;> cases tp <;> cases r1 <;> cases r2 <;> rfl

/-- The finally-style cleanup attempts the archive removal exactly when the
archive variable was assigned. -/
theorem cleanupFinally_tarball (td tp : Option String) (r1 r2 : Except String Unit) :
    (cleanupFinally td tp r1 r2).2.2 = tp.isSome := by
  unfold cleanupFinally
  cases td <;> cases tp <;> cases r1 <;> cases r2 <;> rfl

/-- A failed workspace removal in the finally-style cleanup produces its
warning line. -/
theorem cleanupFinally_warning_mem (td tp : Option String) (r2 : Except String Unit)
    (m : String) (h : td.isSome = true) :
    ("Warning: Failed to cleanup test directory: " ++ m)
      ∈ (cleanupFinally td tp (Except.error m) r2).1 := by
  cases td with
  | none => cases h
  | some d => cases tp <;> cases r2 <;> simp [cleanupFinally]

/-- A minimal module-kind checker with no skip flags set. -/
def chkModule : Checker :=
  mkChecker { packageDir := "proj" }
    { name := "m", version := "1.0.0", main := some "./dist/index.js" }

/-- Stage 4 module-branch environment where the dynamic import fails and
both removals would have succeeded. -/
def envImportFails : Stage4Env :=
  { mkdtemp := Except.ok "ws", pack := Except.ok "m-1.0.0.tgz",
    npmInit := Except.ok (), npmInstall := Except.ok (),
    run := Except.error "import blew up",
    rmDir := Except.ok (), rmTarball := Except.ok () }

/-- Stage 4 module-branch environment where everything succeeds except the
workspace removal. -/
def envRmFails : Stage4Env :=
  { mkdtemp := Except.ok "ws", pack := Except.ok "m-1.0.0.tgz",
    npmInit := Except.ok (), npmInstall := Except.ok (),
    run := Except.ok (),
    rmDir := Except.error "EBUSY", rmTarball := Except.ok () }

/-- C4 counterexample, in the Stage 4 module branch: on the failing import
path neither the workspace nor the archive removal is attempted even though
both were created, and a workspace-removal failure is appended to the
ErrorLog (worded as an import failure) with no warning logged — so it
affects the success flag, contradicting the claim for this stage. -/
theorem C4_counterexample :
    ((verifyModuleImport chkModule envImportFails []).rmDirAttempted = false
      ∧ (verifyModuleImport chkModule envImportFails []).rmTarballAttempted = false)
    ∧ (verifyModuleImport chkModule envRmFails []).errors
        = ["Failed to import module: EBUSY"]
    ∧ (verifyModuleImport chkModule envRmFails []).warnings = [] :=
  ⟨⟨rfl, rfl⟩, rfl, rfl⟩

/-- C4 amended: removal of the ephemeral workspace and archive runs on
every exit path, with removal failures logged as warnings only, exactly in
the stages built with a `finally` — Stage 3 and the Stage 4 service branch:
there removal is attempted whenever the resource was created, removal
outcomes never influence the appended errors, and a failed workspace
removal yields a warning line. In the Stage 4 module and executable
branches the removals run only when every prior step succeeded, and a
removal failure there is caught by the stage's catch and appended to the
ErrorLog. -/
theorem C4_cleanup_amended (c : Checker) (e3 : Stage3Env) (e4 : Stage4Env) (em : McpEnv)
    (errors : List String)
    (h3 : c.config.skipPackage = false) (hm : c.config.skipCheckMcpServer = false)
    (hi : c.config.skipCheckImport = false) (hb : c.config.skipCheckBin = false) :
    ((verifyPackage c e3 errors).rmDirAttempted = (stage3Try c e3).1.isSome
      ∧ (verifyPackage c e3 errors).rmTarballAttempted = (stage3Try c e3).2.1.isSome
      ∧ (∀ r1 r2, (verifyPackage c { e3 with rmDir := r1, rmTarball := r2 } errors).errors
          = (verifyPackage c e3 errors).errors)
      ∧ (∀ m, e3.rmDir = Except.error m → (stage3Try c e3).1.isSome = true →
          ("Warning: Failed to cleanup test directory: " ++ m)
            ∈ (verifyPackage c e3 errors).warnings))
    ∧ ((verifyMcpServer c em errors).rmDirAttempted = (mcpTry c em).1.isSome
      ∧ (verifyMcpServer c em errors).rmTarballAttempted = (mcpTry c em).2.1.isSome
      ∧ (∀ r1 r2, (verifyMcpServer c { em with rmDir := r1, rmTarball := r2 } errors).errors
          = (verifyMcpServer c em errors).errors)
      ∧ (∀ m, em.rmDir = Except.error m → (mcpTry c em).1.isSome = true →
          ("Warning: Failed to cleanup test directory: " ++ m)
            ∈ (verifyMcpServer c em errors).warnings))
    ∧ ((verifyModuleImport c e4 errors).rmDirAttempted
        = (exOk e4.mkdtemp && exOk e4.pack && exOk e4.npmInit
            && exOk e4.npmInstall && exOk e4.run)
      ∧ (∀ m, exOk e4.mkdtemp = true → exOk e4.pack = true → exOk e4.npmInit = true →
          exOk e4.npmInstall = true → exOk e4.run = true → e4.rmDir = Except.error m →
          (verifyModuleImport c e4 errors).errors
            = errors ++ ["Failed to import module: " ++ m]))
    ∧ ((verifyCliExecution c e4 errors).rmDirAttempted
        = (exOk e4.mkdtemp && exOk e4.pack && exOk e4.npmInit
            && exOk e4.npmInstall && exOk e4.run)
      ∧ (∀ m, exOk e4.mkdtemp = true → exOk e4.pack = true → exOk e4.npmInit = true →
          exOk e4.npmInstall = true → exOk e4.run = true → e4.rmDir = Except.error m →
          (verifyCliExecution c e4 errors).errors
            = errors ++ ["CLI execution failed: " ++ m])) := by
  refine ⟨⟨?_, ?_, ?_, ?_⟩, ⟨?_, ?_, ?_, ?_⟩, ⟨?_, ?_⟩, ⟨?_, ?_⟩⟩
  · simp [verifyPackage, h3, cleanupFinally_dir]
  · simp [verifyPackage, h3, cleanupFinally_tarball]
  · intro r1 r2
    simp only [verifyPackage, h3, Bool.false_eq_true, if_false]
    rfl
  · intro m hrm hsome
    simp only [verifyPackage, h3, Bool.false_eq_true, if_false, hrm]
    exact cleanupFinally_warning_mem _ _ _ m hsome
  · simp [verifyMcpServer, hm, cleanupFinally_dir]
  · simp [verifyMcpServer, hm, cleanupFinally_tarball]
  · intro r1 r2
    simp only [verifyMcpServer, hm, Bool.false_eq_true, if_false]
    rfl
  · intro m hrm hsome
    simp only [verifyMcpServer, hm, Bool.false_eq_true, if_false, hrm]
    exact cleanupFinally_warning_mem _ _ _ m hsome
  · rcases e4 with ⟨mk, pk, ni, inst, run, rd, rt⟩
    simp only [verifyModuleImport, hi, Bool.false_eq_true, if_false]
    cases mk <;> cases pk <;> cases ni <;> cases inst <;> cases run <;>
      cases rd <;> cases rt <;> simp [exOk]
  · intro m h1 h2 h4 h5 h6 hrd
    obtain ⟨d, hd⟩ := (exOk_eq_true_iff _).mp h1
    obtain ⟨t, hp⟩ := (exOk_eq_true_iff _).mp h2
    obtain ⟨u1, hni⟩ := (exOk_eq_true_iff _).mp h4
    obtain ⟨u2, hinst⟩ := (exOk_eq_true_iff _).mp h5
    obtain ⟨u3, hrun⟩ := (exOk_eq_true_iff _).mp h6
    simp [verifyModuleImport, hi, hd, hp, hni, hinst, hrun, hrd]
  · rcases e4 with ⟨mk, pk, ni, inst, run, rd, rt⟩
    simp only [verifyCliExecution, hb, Bool.false_eq_true, if_false]
    cases mk <;> cases pk <;> cases ni <;> cases inst <;> cases run <;>
      cases rd <;> cases rt <;> simp [exOk]
  · intro m h1 h2 h4 h5 h6 hrd
    obtain ⟨d, hd⟩ := (exOk_eq_true_iff _).mp h1
    obtain ⟨t, hp⟩ := (exOk_eq_true_iff _).mp h2
    obtain ⟨u1, hni⟩ := (exOk_eq_true_iff _).mp h4
    obtain ⟨u2, hinst⟩ := (exOk_eq_true_iff _).mp h5
    obtain ⟨u3, hrun⟩ := (exOk_eq_true_iff _).mp h6
    simp [verifyCliExecution, hb, hd, hp, hni, hinst, hrun, hrd]

/-- A Stage 3 environment with a successful run but a failing workspace
removal. -/
def envS3RmFails : Stage3Env :=
  { pack := Except.ok "m-1.0.0.tgz", mkdtemp := Except.ok "ws",
    npmInit := Except.ok (), npmInstall := Except.ok (),
    installedExists := fun _ => true, entries := ["package.json", "dist"],
    rmDir := Except.error "EBUSY", rmTarball := Except.ok () }

/-- A service-branch environment whose spawn fails, with both removals
succeeding. -/
def envMcpSpawnFails : McpEnv :=
  { mkdtemp := Except.ok "ws", pack := Except.ok "m-1.0.0.tgz",
    npmInit := Except.ok (), npmInstall := Except.ok (),
    spawn := Except.error "spawn failed", connect := Except.ok (),
    tests := Except.ok (), rmDir := Except.ok (), rmTarball := Except.ok () }

/-- C4 witness: at a concrete checker, a Stage 3 removal failure is a
warning only (errors stay empty), and the service branch attempts both
removals even on a failing spawn path; the module branch with a failing
dynamic import attempts no removal. -/
theorem C4_witness :
    ("Warning: Failed to cleanup test directory: EBUSY"
        ∈ (verifyPackage chkModule envS3RmFails []).warnings)
    ∧ (verifyMcpServer chkModule envMcpSpawnFails []).rmDirAttempted
        = (mcpTry chkModule envMcpSpawnFails).1.isSome
    ∧ (verifyModuleImport chkModule envImportFails []).rmDirAttempted
        = (exOk envImportFails.mkdtemp && exOk envImportFails.pack
            && exOk envImportFails.npmInit && exOk envImportFails.npmInstall
            && exOk envImportFails.run) :=
  ⟨(C4_cleanup_amended chkModule envS3RmFails envImportFails envMcpSpawnFails []
      rfl rfl rfl rfl).1.2.2.2 "EBUSY" rfl rfl,
   (C4_cleanup_amended chkModule envS3RmFails envImportFails envMcpSpawnFails []
      rfl rfl rfl rfl).2.1.1,
   (C4_cleanup_amended chkModule envS3RmFails envImportFails envMcpSpawnFails []
      rfl rfl rfl rfl).2.2.1.1⟩

/-- Stage 1 only appends to the error accumulator it is given. -/
theorem verifyBuild_append (c : Checker) (b : Except String Unit) (errs : List String) :
    verifyBuild c b errs = errs ++ verifyBuild c b [] := by
  unfold verifyBuild
  split
  · simp
  · split
    · simp
    · cases b <;> simp

/-- Stage 2 only appends to the error accumulator it is given. -/
theorem verifyRequiredFiles_append (c : Checker) (f : String → Bool) (errs : List String) :
    verifyRequiredFiles c f errs = errs ++ verifyRequiredFiles c f [] := by
  unfold verifyRequiredFiles
  split
  · simp
  · rw [foldl_missing_append, foldl_missing_append]
    simp

/-- Stage 3 only appends to the error accumulator it is given. -/
theorem verifyPackage_errors_append (c : Checker) (env : Stage3Env) (errs : List String) :
    (verifyPackage c env errs).errors = errs ++ (verifyPackage c env []).errors := by
  unfold verifyPackage
  split
  · simp
  · cases h : (stage3Try c env).2.2 <;> simp [h]

/-- The Stage 4 service branch only appends to the error accumulator it is
given. -/
theorem verifyMcpServer_errors_append (c : Checker) (env : McpEnv) (errs : List String) :
    (verifyMcpServer c env errs).errors = errs ++ (verifyMcpServer c env []).errors := by
  unfold verifyMcpServer
  split
  · simp
  · cases h : (mcpTry c env).2.2 <;> simp [h]

/-- The Stage 4 module branch only appends to the error accumulator it is
given. -/
theorem verifyModuleImport_errors_append (c : Checker) (env : Stage4Env) (errs : List String) :
    (verifyModuleImport c env errs).errors = errs ++ (verifyModuleImport c env []).errors := by
  rcases env with ⟨mk, pk, ni, inst, run, rd, rt⟩
  unfold verifyModuleImport
  split
  · simp
  · cases mk <;> cases pk <;> cases ni <;> cases inst <;> cases run <;>
      cases rd <;> cases rt <;> simp

/-- The Stage 4 cli branch only appends to the error accumulator it is
given. -/
theorem verifyCliExecution_errors_append (c : Checker) (env : Stage4Env) (errs : List String) :
    (verifyCliExecution c env errs).errors = errs ++ (verifyCliExecution c env []).errors := by
  rcases env with ⟨mk, pk, ni, inst, run, rd, rt⟩
  unfold verifyCliExecution
  split
  · simp
  · cases mk <;> cases pk <;> cases ni <;> cases inst <;> cases run <;>
      cases rd <;> cases rt <;> simp

/-- Stage 4 only appends to the error accumulator it is given. -/
theorem verifyRuntime_errors_append (c : Checker) (env : CheckEnv) (errs : List String) :
    (verifyRuntime c env errs).errors = errs ++ (verifyRuntime c env []).errors := by
  unfold verifyRuntime
  cases c.packageInfo.type with
  | mcpServer => exact verifyMcpServer_errors_append c env.mcp errs
  | cli => exact verifyCliExecution_errors_append c env.s4 errs
  | module => exact verifyModuleImport_errors_append c env.s4 errs

/-- C7: one `check()` invocation discards any previously accumulated
errors, runs (or skips) each of the four stages exactly once in order — the
final log is the concatenation, in stage order, of the four stages'
contributions — reports success exactly when that log is empty, and returns
the package info computed at construction. -/
theorem C7_check_pipeline (config : VerifyConfig) (pkg : PackageJson)
    (prev prev2 : List String) (env : CheckEnv) :
    (check (mkChecker config pkg) prev env = check (mkChecker config pkg) prev2 env)
    ∧ ((check (mkChecker config pkg) prev env).success = true ↔
        (check (mkChecker config pkg) prev env).errors = [])
    ∧ (check (mkChecker config pkg) prev env).packageInfo = detectPackageType pkg
    ∧ (check (mkChecker config pkg) prev env).errors =
        verifyBuild (mkChecker config pkg) env.build []
          ++ verifyRequiredFiles (mkChecker config pkg) env.fsExists []
          ++ (verifyPackage (mkChecker config pkg) env.s3 []).errors
          ++ (verifyRuntime (mkChecker config pkg) env []).errors := by
  refine ⟨rfl, ?_, rfl, ?_⟩
  · unfold check
    simp [List.length_eq_zero]
  · unfold check
    simp only []
    rw [verifyRuntime_errors_append, verifyPackage_errors_append,
      verifyRequiredFiles_append]

end NpmCheck
